import Mathlib

/-!
Shallow embedding of the ZKP private→public bridge demo:
* `HouseToken` (ERC-1155 mint gate on the public chain) — `contracts/HouseToken.sol`
* `HouseTokenizingGovernance` (approval registry on the private chain) —
  `contracts/HouseTokenizingGovernance.sol`
* `HouseApproval` circom circuit — `circuits/houseApproval.circom`

Solidity `uint256` values appear only under equality tests and a single `+ 1`
that cannot overflow (the one-time mint guard caps every balance at 1), so they
are embedded as `Nat`; addresses likewise as `Nat` with `0 = address(0)`.
A reverting call is an `Except.error`; the revert rolls the state back, which
the trace-level step functions make explicit by keeping the pre-state on error.
-/

namespace ZKPBridge

/-- Ledger addresses, embedded as naturals; `0` stands for `address(0)`. -/
abbrev Address := Nat

/-! ### HouseToken (public-chain mint gate) -/

/-- A Groth16 proof object as passed to `mintHouseToken`:
points `_pA : uint[2]`, `_pB : uint[2][2]`, `_pC : uint[2]`. Opaque to the
contract except for being forwarded to the verifier and hashed. -/
structure Groth16Proof where
  pA : Nat × Nat
  pB : (Nat × Nat) × (Nat × Nat)
  pC : Nat × Nat
deriving DecidableEq

/-- The external `IVerifier.verifyProof` capability: takes the proof points and
the public-signal vector `uint[1]` (embedded as its single element) and answers
a `Bool`. The contract treats it as opaque, so the embedding quantifies over it. -/
abbrev Verifier := Groth16Proof → Nat → Bool

/-- The `keccak256(abi.encode(_pA, _pB, _pC))` fingerprint used in the
`HouseTokenMinted` event; opaque to the contract, so it is a parameter. -/
abbrev ProofHash := Groth16Proof → Nat

/-- Revert reasons of `mintHouseToken`. `houseIdMismatch` is the
`require(_pubSignals[0] == houseId, "HouseToken: houseId mismatch")` failure —
the spec calls it `PublicInputMismatch`. `invalidReceiver` is OpenZeppelin
ERC-1155's `_mint` revert for a zero recipient address. -/
inductive MintError where
  | alreadyMinted (houseId : Nat)
  | houseIdMismatch
  | invalidProof
  | invalidReceiver
deriving DecidableEq

/-- The `HouseTokenMinted(houseId, recipient, proofHash)` event. -/
structure HouseTokenMinted where
  houseId   : Nat
  recipient : Address
  proofHash : Nat
deriving DecidableEq

/-- Mutable state of the `HouseToken` contract: the `minted` mapping and the
inherited ERC-1155 `_balances` (read through `balanceOf account id`).
Mappings default to `false` / `0` exactly as Solidity storage does. -/
structure TokenState where
  minted   : Nat → Bool
  balances : Address → Nat → Nat

/-- Fresh contract storage: nothing minted, all balances zero. -/
def TokenState.init : TokenState :=
  { minted := fun _ => false, balances := fun _ _ => 0 }

/-- `HouseToken.mintHouseToken(houseId, _pA, _pB, _pC, _pubSignals, recipient)`.
Checks in source order: the one-time mint guard, the public-signal consistency
`require`, the verifier call, then (inside the inherited `_mint`) the
zero-recipient guard; on success it sets `minted[houseId] = true`, credits one
token to the recipient and emits `HouseTokenMinted`.
(The ERC-1155 `TransferSingle` event and the acceptance callback for contract
recipients are outside the claims and elided; recipients are plain accounts.) -/
def mintHouseToken (verify : Verifier) (keccak : ProofHash) (st : TokenState)
    (houseId : Nat) (proof : Groth16Proof) (pubSignal0 : Nat)
    (recipient : Address) :
    Except MintError (TokenState × HouseTokenMinted) :=
  if st.minted houseId then .error (.alreadyMinted houseId)
  else if pubSignal0 ≠ houseId then .error .houseIdMismatch
  else if ¬ (verify proof pubSignal0 = true) then .error .invalidProof
  else if recipient = 0 then .error .invalidReceiver
  else
    .ok ({ minted := fun h => if h = houseId then true else st.minted h,
           balances := fun a h =>
             if a = recipient ∧ h = houseId then st.balances a h + 1
             else st.balances a h },
         ⟨houseId, recipient, keccak proof⟩)

/-- One transaction submitted to `mintHouseToken`. -/
structure MintCall where
  houseId    : Nat
  proof      : Groth16Proof
  pubSignal0 : Nat
  recipient  : Address
deriving DecidableEq

/-- One ledger transaction: a revert leaves the storage untouched and emits
nothing; a success installs the new storage and records the accepted call
together with its event. -/
def mintStep (verify : Verifier) (keccak : ProofHash) (st : TokenState)
    (c : MintCall) : TokenState × Option (MintCall × HouseTokenMinted) :=
  match mintHouseToken verify keccak st c.houseId c.proof c.pubSignal0
      c.recipient with
  | .ok (st', ev) => (st', some (c, ev))
  | .error _ => (st, none)

/-- Serialized execution of a list of `mintHouseToken` transactions, returning
the final storage and the log of accepted calls with their events, in order. -/
def mintRun (verify : Verifier) (keccak : ProofHash) :
    TokenState → List MintCall → TokenState × List (MintCall × HouseTokenMinted)
  | st, [] => (st, [])
  | st, c :: cs =>
    let s := mintStep verify keccak st c
    let r := mintRun verify keccak s.1 cs
    (r.1, s.2.toList ++ r.2)

/-! ### HouseTokenizingGovernance (private-chain approval registry) -/

/-- The three fixed approver roles of the governance contract. -/
inductive Role where
  | agent
  | bank
  | housingDept
deriving DecidableEq

/-- The three role addresses, set once in the constructor and declared
`immutable` in the source. -/
structure Roles where
  agent       : Address
  bank        : Address
  housingDept : Address
deriving DecidableEq

/-- The `ApprovalState` struct stored per `houseId`. -/
structure ApprovalState where
  agentApproved       : Bool
  bankApproved        : Bool
  housingDeptApproved : Bool
  fullyApproved       : Bool
deriving DecidableEq

/-- A fresh mapping slot: Solidity storage defaults, all four flags false. -/
def ApprovalState.zero : ApprovalState :=
  ⟨false, false, false, false⟩

/-- Contract state: the immutable role addresses plus the
`mapping(uint256 => ApprovalState) approvals`. -/
structure GovState where
  roles     : Roles
  approvals : Nat → ApprovalState

/-- State right after the constructor ran: roles bound, empty mapping. -/
def GovState.init (roles : Roles) : GovState :=
  { roles := roles, approvals := fun _ => ApprovalState.zero }

/-- Events of the governance contract: the per-role
`HouseApproved(houseId, approver, role)` and the aggregation-complete
`HouseFullyApproved(houseId)`. -/
inductive GovEvent where
  | houseApproved (houseId : Nat) (approver : Address) (role : String)
  | houseFullyApproved (houseId : Nat)
deriving DecidableEq

/-- Revert reasons: the `onlyRole` modifiers' `require` (spec: `NotAuthorized`)
and the double-approval `require` (spec: `AlreadyApproved`), each carrying the
source's revert string. -/
inductive GovError where
  | notAuthorized (msg : String)
  | alreadyApproved (msg : String)
deriving DecidableEq

/-- Write the `approvals[houseId]` storage slot (the effect of assigning
through a `storage` reference in the source). -/
def GovState.store (st : GovState) (houseId : Nat) (s : ApprovalState) :
    GovState :=
  { st with approvals := fun h => if h = houseId then s else st.approvals h }

/-- `_checkFullApproval(houseId)`: if all three flags are set and
`fullyApproved` is still false, set it and emit `HouseFullyApproved`. -/
def checkFullApproval (st : GovState) (houseId : Nat) :
    GovState × List GovEvent :=
  if (st.approvals houseId).agentApproved ∧
      (st.approvals houseId).bankApproved ∧
      (st.approvals houseId).housingDeptApproved ∧
      ¬ ((st.approvals houseId).fullyApproved = true) then
    (st.store houseId { st.approvals houseId with fullyApproved := true },
     [.houseFullyApproved houseId])
  else (st, [])

/-- `approveAsAgent(houseId)` called from `sender`: `onlyAgent` modifier, the
double-approval guard, set the flag, emit `HouseApproved`, then
`_checkFullApproval`. -/
def approveAsAgent (st : GovState) (sender : Address) (houseId : Nat) :
    Except GovError (GovState × List GovEvent) :=
  if ¬ (sender = st.roles.agent) then .error (.notAuthorized "Not Agent")
  else
    let s := st.approvals houseId
    if s.agentApproved then .error (.alreadyApproved "Agent already approved")
    else
      let st1 := st.store houseId { s with agentApproved := true }
      let r := checkFullApproval st1 houseId
      .ok (r.1, .houseApproved houseId sender "Agent" :: r.2)

/-- `approveAsBank(houseId)` called from `sender`. -/
def approveAsBank (st : GovState) (sender : Address) (houseId : Nat) :
    Except GovError (GovState × List GovEvent) :=
  if ¬ (sender = st.roles.bank) then .error (.notAuthorized "Not Bank")
  else
    let s := st.approvals houseId
    if s.bankApproved then .error (.alreadyApproved "Bank already approved")
    else
      let st1 := st.store houseId { s with bankApproved := true }
      let r := checkFullApproval st1 houseId
      .ok (r.1, .houseApproved houseId sender "Bank" :: r.2)

/-- `approveAsHousingDept(houseId)` called from `sender`. -/
def approveAsHousingDept (st : GovState) (sender : Address) (houseId : Nat) :
    Except GovError (GovState × List GovEvent) :=
  if ¬ (sender = st.roles.housingDept) then
    .error (.notAuthorized "Not HousingDept")
  else
    let s := st.approvals houseId
    if s.housingDeptApproved then
      .error (.alreadyApproved "HousingDept already approved")
    else
      let st1 := st.store houseId { s with housingDeptApproved := true }
      let r := checkFullApproval st1 houseId
      .ok (r.1, .houseApproved houseId sender "HousingDept" :: r.2)

/-- `getApprovalState(houseId)`: pure read of the four booleans. -/
def getApprovalState (st : GovState) (houseId : Nat) :
    Bool × Bool × Bool × Bool :=
  let s := st.approvals houseId
  (s.agentApproved, s.bankApproved, s.housingDeptApproved, s.fullyApproved)

/-- One transaction against the registry: which entry point, from which
address, for which asset. -/
structure GovCall where
  role    : Role
  sender  : Address
  houseId : Nat
deriving DecidableEq

/-- Dispatch a call to the entry point its `role` names. -/
def govDispatch (st : GovState) (c : GovCall) :
    Except GovError (GovState × List GovEvent) :=
  match c.role with
  | .agent => approveAsAgent st c.sender c.houseId
  | .bank => approveAsBank st c.sender c.houseId
  | .housingDept => approveAsHousingDept st c.sender c.houseId

/-- One ledger transaction: a revert leaves storage untouched and emits
nothing. -/
def govStep (st : GovState) (c : GovCall) : GovState × List GovEvent :=
  match govDispatch st c with
  | .ok r => r
  | .error _ => (st, [])

/-- Serialized execution of a list of registry transactions, with the
concatenated event log. -/
def govRun : GovState → List GovCall → GovState × List GovEvent
  | st, [] => (st, [])
  | st, c :: cs =>
    let s := govStep st c
    let r := govRun s.1 cs
    (r.1, s.2 ++ r.2)

/-- The flag a role's approve function guards and sets. -/
def Role.flag : Role → ApprovalState → Bool
  | .agent => ApprovalState.agentApproved
  | .bank => ApprovalState.bankApproved
  | .housingDept => ApprovalState.housingDeptApproved

/-- The address authorized for a role (the `onlyRole` modifier's check). -/
def Role.addr : Role → Roles → Address
  | .agent => Roles.agent
  | .bank => Roles.bank
  | .housingDept => Roles.housingDept

/-- The revert string of a role's `onlyRole` modifier. -/
def Role.notAuthMsg : Role → String
  | .agent => "Not Agent"
  | .bank => "Not Bank"
  | .housingDept => "Not HousingDept"

/-- The revert string of a role's double-approval guard. -/
def Role.alreadyMsg : Role → String
  | .agent => "Agent already approved"
  | .bank => "Bank already approved"
  | .housingDept => "HousingDept already approved"

/-- The role string carried by a role's `HouseApproved` event. -/
def Role.evName : Role → String
  | .agent => "Agent"
  | .bank => "Bank"
  | .housingDept => "HousingDept"

/-- Setting a role's flag in an `ApprovalState` (the `s.roleApproved = true`
assignment of that role's approve function). -/
def Role.setFlag : Role → ApprovalState → ApprovalState
  | .agent, s => { s with agentApproved := true }
  | .bank, s => { s with bankApproved := true }
  | .housingDept, s => { s with housingDeptApproved := true }

/-! ### HouseApproval circuit and witness bundle -/

/-- The enumeration of private input signals actually declared by the
`HouseApproval` circom template: `agentApproved` and `bankApproved`.
(`houseId` is the sole public input.) -/
inductive PrivateSignal where
  | agentApproved
  | bankApproved
deriving DecidableEq

/-- The witness bundle fed to proof generation (`snarkjs fullProve` input):
the two private signals of the circuit plus the public `houseId`. Circom
signals are elements of the BN254 scalar field; they are embedded as integers,
which is faithful for the circuit's constraints because each is a polynomial
identity whose consequences used below hold in every integral domain. -/
structure WitnessBundle where
  agentApproved : Int
  bankApproved  : Int
  houseId       : Int
deriving DecidableEq

/-- The constraint system of the `HouseApproval` template, in source order:
booleanity of each private flag (`x * (x - 1) === 0`), the conjunction
constraint `agentApproved * bankApproved === 1`, and the trivial
`houseBound * 0 === 0` self-constraint that binds `houseId`. -/
def houseApprovalConstraints (w : WitnessBundle) : Prop :=
  w.agentApproved * (w.agentApproved - 1) = 0 ∧
  w.bankApproved * (w.bankApproved - 1) = 0 ∧
  w.agentApproved * w.bankApproved = 1 ∧
  (w.houseId * (w.agentApproved * w.bankApproved)) * 0 = 0

instance (w : WitnessBundle) : Decidable (houseApprovalConstraints w) := by
  unfold houseApprovalConstraints; infer_instance

/-! ### Concrete fixtures used to instantiate closed corollaries -/

/-- A sample Groth16 proof object (all-zero points). -/
def sampleProof : Groth16Proof := ⟨(0, 0), ((0, 0), (0, 0)), (0, 0)⟩

/-- A verifier stub that accepts every proof. -/
def acceptAll : Verifier := fun _ _ => true

/-- A proof-hash stub. -/
def zeroHash : ProofHash := fun _ => 0

/-- Sample role addresses: agent `1`, bank `2`, housing department `3`. -/
def sampleRoles : Roles := ⟨1, 2, 3⟩

/-! ### Lemmas about `mintHouseToken` and its traces -/

theorem mintHouseToken_ok_inv {verify : Verifier} {keccak : ProofHash}
    {st : TokenState} {houseId : Nat} {proof : Groth16Proof}
    {pubSignal0 : Nat} {recipient : Address} {st' : TokenState}
    {ev : HouseTokenMinted}
    (h : mintHouseToken verify keccak st houseId proof pubSignal0 recipient
        = .ok (st', ev)) :
    st.minted houseId = false ∧ pubSignal0 = houseId ∧
    verify proof pubSignal0 = true ∧ recipient ≠ 0 ∧
    st'.minted = (fun h => if h = houseId then true else st.minted h) ∧
    st'.balances = (fun a h =>
      if a = recipient ∧ h = houseId then st.balances a h + 1
      else st.balances a h) ∧
    ev = ⟨houseId, recipient, keccak proof⟩ := by
  unfold mintHouseToken at h
  split_ifs at h with h1 h2 h3 h4
  rw [Except.ok.injEq] at h
  cases h
  exact ⟨by simpa using h1, by simpa using h2, by simpa using h3, h4,
    rfl, rfl, rfl⟩

theorem mintHouseToken_alreadyMinted {verify : Verifier} {keccak : ProofHash}
    {st : TokenState} {houseId : Nat} (proof : Groth16Proof)
    (pubSignal0 : Nat) (recipient : Address)
    (h : st.minted houseId = true) :
    mintHouseToken verify keccak st houseId proof pubSignal0 recipient
      = .error (.alreadyMinted houseId) := by
  unfold mintHouseToken
  simp [h]

theorem mintStep_error {verify : Verifier} {keccak : ProofHash}
    {st : TokenState} {c : MintCall} {e : MintError}
    (h : mintHouseToken verify keccak st c.houseId c.proof c.pubSignal0
        c.recipient = .error e) :
    mintStep verify keccak st c = (st, none) := by
  unfold mintStep
  rw [h]

theorem mintStep_minted_mono {verify : Verifier} {keccak : ProofHash}
    {st : TokenState} (c : MintCall) {h : Nat}
    (hm : st.minted h = true) :
    (mintStep verify keccak st c).1.minted h = true := by
  unfold mintStep
  cases hcall : mintHouseToken verify keccak st c.houseId c.proof
      c.pubSignal0 c.recipient with
  | error e => exact hm
  | ok r =>
    obtain ⟨st', ev⟩ := r
    have := mintHouseToken_ok_inv hcall
    simp only [this.2.2.2.2.1]
    split <;> simp [hm]

theorem mintRun_minted_mono (verify : Verifier) (keccak : ProofHash)
    (st : TokenState) (cs : List MintCall) {h : Nat}
    (hm : st.minted h = true) :
    (mintRun verify keccak st cs).1.minted h = true := by
  induction cs generalizing st with
  | nil => exact hm
  | cons c cs ih =>
    exact ih _ (mintStep_minted_mono c hm)

/-! ### Lemmas about the approval registry -/

/-- The three entry points share one shape, expressed through the `Role`
helpers; each case is definitional. -/
theorem govDispatch_eq (st : GovState) (c : GovCall) :
    govDispatch st c =
      if ¬ (c.sender = c.role.addr st.roles) then
        .error (.notAuthorized c.role.notAuthMsg)
      else if c.role.flag (st.approvals c.houseId) then
        .error (.alreadyApproved c.role.alreadyMsg)
      else
        .ok ((checkFullApproval
                (st.store c.houseId (c.role.setFlag (st.approvals c.houseId)))
                c.houseId).1,
             .houseApproved c.houseId c.sender c.role.evName ::
               (checkFullApproval
                 (st.store c.houseId (c.role.setFlag (st.approvals c.houseId)))
                 c.houseId).2) := by
  obtain ⟨role, sender, houseId⟩ := c
  cases role <;> rfl

theorem checkFullApproval_roles (st : GovState) (houseId : Nat) :
    (checkFullApproval st houseId).1.roles = st.roles := by
  unfold checkFullApproval
  split <;> rfl

theorem checkFullApproval_frame (st : GovState) (houseId : Nat) {h : Nat}
    (hne : h ≠ houseId) :
    (checkFullApproval st houseId).1.approvals h = st.approvals h := by
  unfold checkFullApproval
  split
  · simp [GovState.store, hne]
  · rfl

theorem checkFullApproval_at (st : GovState) (houseId : Nat) :
    (checkFullApproval st houseId).1.approvals houseId = st.approvals houseId
    ∨ ((checkFullApproval st houseId).1.approvals houseId
        = { st.approvals houseId with fullyApproved := true }
      ∧ (st.approvals houseId).agentApproved = true
      ∧ (st.approvals houseId).bankApproved = true
      ∧ (st.approvals houseId).housingDeptApproved = true
      ∧ (st.approvals houseId).fullyApproved = false) := by
  unfold checkFullApproval
  split_ifs with hc
  · right
    refine ⟨by simp [GovState.store], hc.1, hc.2.1, hc.2.2.1, by
      simpa using hc.2.2.2⟩
  · left; rfl

theorem store_at (st : GovState) (houseId : Nat) (s : ApprovalState) :
    (st.store houseId s).approvals houseId = s := by
  simp [GovState.store]

theorem store_frame (st : GovState) (houseId : Nat) (s : ApprovalState)
    {h : Nat} (hne : h ≠ houseId) :
    (st.store houseId s).approvals h = st.approvals h := by
  simp [GovState.store, hne]

theorem setFlag_mono (r : Role) (s : ApprovalState) :
    (s.agentApproved = true → (r.setFlag s).agentApproved = true) ∧
    (s.bankApproved = true → (r.setFlag s).bankApproved = true) ∧
    (s.housingDeptApproved = true →
      (r.setFlag s).housingDeptApproved = true) ∧
    (r.setFlag s).fullyApproved = s.fullyApproved := by
  cases r <;> simp [Role.setFlag]

theorem checkFullApproval_flags (st : GovState) (houseId h : Nat) :
    ((checkFullApproval st houseId).1.approvals h).agentApproved
      = (st.approvals h).agentApproved ∧
    ((checkFullApproval st houseId).1.approvals h).bankApproved
      = (st.approvals h).bankApproved ∧
    ((checkFullApproval st houseId).1.approvals h).housingDeptApproved
      = (st.approvals h).housingDeptApproved ∧
    ((st.approvals h).fullyApproved = true →
      ((checkFullApproval st houseId).1.approvals h).fullyApproved = true) := by
  by_cases hh : h = houseId
  · subst hh
    rcases checkFullApproval_at st h with hcf | ⟨hcf, _⟩ <;> simp [hcf]
  · rw [checkFullApproval_frame st houseId hh]
    exact ⟨rfl, rfl, rfl, id⟩

theorem govDispatch_ok_inv {st : GovState} {c : GovCall} {st' : GovState}
    {evs : List GovEvent} (h : govDispatch st c = .ok (st', evs)) :
    c.sender = c.role.addr st.roles ∧
    c.role.flag (st.approvals c.houseId) = false ∧
    st' = (checkFullApproval
      (st.store c.houseId (c.role.setFlag (st.approvals c.houseId)))
      c.houseId).1 ∧
    evs = .houseApproved c.houseId c.sender c.role.evName ::
      (checkFullApproval
        (st.store c.houseId (c.role.setFlag (st.approvals c.houseId)))
        c.houseId).2 := by
  rw [govDispatch_eq] at h
  split_ifs at h with h1 h2
  rw [Except.ok.injEq] at h
  cases h
  exact ⟨by simpa using h1, by simpa using h2, rfl, rfl⟩

theorem govStep_of_error {st : GovState} {c : GovCall} {e : GovError}
    (h : govDispatch st c = .error e) : govStep st c = (st, []) := by
  unfold govStep
  rw [h]

theorem govStep_roles (st : GovState) (c : GovCall) :
    (govStep st c).1.roles = st.roles := by
  unfold govStep
  cases hd : govDispatch st c with
  | error e => rfl
  | ok r =>
    obtain ⟨st', evs⟩ := r
    have hinv := govDispatch_ok_inv hd
    simp only [hinv.2.2.1]
    rw [checkFullApproval_roles]
    rfl

theorem govRun_roles (st : GovState) (cs : List GovCall) :
    (govRun st cs).1.roles = st.roles := by
  induction cs generalizing st with
  | nil => rfl
  | cons c cs ih =>
    show (govRun (govStep st c).1 cs).1.roles = st.roles
    rw [ih, govStep_roles]

theorem govStep_flags_mono (st : GovState) (c : GovCall) (h : Nat) :
    ((st.approvals h).agentApproved = true →
      ((govStep st c).1.approvals h).agentApproved = true) ∧
    ((st.approvals h).bankApproved = true →
      ((govStep st c).1.approvals h).bankApproved = true) ∧
    ((st.approvals h).housingDeptApproved = true →
      ((govStep st c).1.approvals h).housingDeptApproved = true) ∧
    ((st.approvals h).fullyApproved = true →
      ((govStep st c).1.approvals h).fullyApproved = true) := by
  unfold govStep
  cases hd : govDispatch st c with
  | error e => exact ⟨id, id, id, id⟩
  | ok r =>
    obtain ⟨st', evs⟩ := r
    have hinv := govDispatch_ok_inv hd
    simp only [hinv.2.2.1]
    have hcf := checkFullApproval_flags
      (st.store c.houseId (c.role.setFlag (st.approvals c.houseId))) c.houseId h
    by_cases hh : h = c.houseId
    · subst hh
      rw [store_at] at hcf
      have hsf := setFlag_mono c.role (st.approvals c.houseId)
      exact ⟨fun ha => hcf.1 ▸ hsf.1 ha,
             fun hb => hcf.2.1 ▸ hsf.2.1 hb,
             fun hc => hcf.2.2.1 ▸ hsf.2.2.1 hc,
             fun hf => hcf.2.2.2 (hsf.2.2.2 ▸ hf)⟩
    · rw [store_frame _ _ _ hh] at hcf
      exact ⟨fun ha => hcf.1 ▸ ha, fun hb => hcf.2.1 ▸ hb,
             fun hc => hcf.2.2.1 ▸ hc, hcf.2.2.2⟩

theorem govRun_flags_mono (st : GovState) (cs : List GovCall) (h : Nat) :
    ((st.approvals h).agentApproved = true →
      (((govRun st cs).1.approvals h).agentApproved = true)) ∧
    ((st.approvals h).bankApproved = true →
      (((govRun st cs).1.approvals h).bankApproved = true)) ∧
    ((st.approvals h).housingDeptApproved = true →
      (((govRun st cs).1.approvals h).housingDeptApproved = true)) ∧
    ((st.approvals h).fullyApproved = true →
      (((govRun st cs).1.approvals h).fullyApproved = true)) := by
  induction cs generalizing st with
  | nil => exact ⟨id, id, id, id⟩
  | cons c cs ih =>
    have hs := govStep_flags_mono st c h
    have hr := ih (govStep st c).1
    exact ⟨fun ha => hr.1 (hs.1 ha), fun hb => hr.2.1 (hs.2.1 hb),
           fun hc => hr.2.2.1 (hs.2.2.1 hc),
           fun hf => hr.2.2.2 (hs.2.2.2 hf)⟩

theorem checkFullApproval_full_eq (st : GovState) (houseId : Nat) :
    ((checkFullApproval st houseId).1.approvals houseId).fullyApproved
      = ((st.approvals houseId).fullyApproved ||
         ((st.approvals houseId).agentApproved &&
          (st.approvals houseId).bankApproved &&
          (st.approvals houseId).housingDeptApproved)) := by
  unfold checkFullApproval
  split_ifs with hc
  · rw [store_at]
    simp [hc.1, hc.2.1, hc.2.2.1]
  · cases hf : (st.approvals houseId).fullyApproved
    · simp only [hf, Bool.false_or]
      simp only [hf, Bool.not_eq_true] at hc
      cases ha : (st.approvals houseId).agentApproved <;>
        cases hb : (st.approvals houseId).bankApproved <;>
        cases hh : (st.approvals houseId).housingDeptApproved <;>
        simp_all
    · simp [hf]

theorem checkFullApproval_events (st : GovState) (houseId : Nat) :
    ((checkFullApproval st houseId).2 = [.houseFullyApproved houseId] ∧
     ((checkFullApproval st houseId).1.approvals houseId).fullyApproved = true ∧
     (st.approvals houseId).fullyApproved = false) ∨
    ((checkFullApproval st houseId).2 = [] ∧
     (checkFullApproval st houseId).1 = st) := by
  unfold checkFullApproval
  split_ifs with hc
  · left
    exact ⟨rfl, by rw [store_at], by simpa using hc.2.2.2⟩
  · right
    exact ⟨rfl, rfl⟩

theorem conj_false_of_flag_false (r : Role) (s : ApprovalState)
    (hf : r.flag s = false) :
    (s.agentApproved && s.bankApproved && s.housingDeptApproved) = false := by
  cases r <;> simp [Role.flag] at hf <;> simp [hf]

/-- The `aggregated == (roleA && roleB && roleC)` invariant is preserved by
every transaction against the registry. -/
theorem govStep_fullInv (st : GovState) (c : GovCall)
    (hI : ∀ h, (st.approvals h).fullyApproved =
      ((st.approvals h).agentApproved && (st.approvals h).bankApproved &&
       (st.approvals h).housingDeptApproved)) :
    ∀ h, ((govStep st c).1.approvals h).fullyApproved =
      (((govStep st c).1.approvals h).agentApproved &&
       ((govStep st c).1.approvals h).bankApproved &&
       ((govStep st c).1.approvals h).housingDeptApproved) := by
  intro h
  unfold govStep
  cases hd : govDispatch st c with
  | error e => exact hI h
  | ok r =>
    obtain ⟨st', evs⟩ := r
    have hinv := govDispatch_ok_inv hd
    simp only [hinv.2.2.1]
    by_cases hh : h = c.houseId
    · subst hh
      have hflags := checkFullApproval_flags
        (st.store c.houseId (c.role.setFlag (st.approvals c.houseId)))
        c.houseId c.houseId
      rw [store_at] at hflags
      have hfe := checkFullApproval_full_eq
        (st.store c.houseId (c.role.setFlag (st.approvals c.houseId)))
        c.houseId
      rw [store_at] at hfe
      have hsf := setFlag_mono c.role (st.approvals c.houseId)
      have hsfull : (st.approvals c.houseId).fullyApproved = false := by
        rw [hI c.houseId]
        exact conj_false_of_flag_false c.role (st.approvals c.houseId)
          hinv.2.1
      rw [hflags.1, hflags.2.1, hflags.2.2.1, hfe, hsf.2.2.2, hsfull,
        Bool.false_or]
    · rw [checkFullApproval_frame _ _ hh, store_frame _ _ _ hh]
      exact hI h

theorem govRun_fullInv (st : GovState) (cs : List GovCall)
    (hI : ∀ h, (st.approvals h).fullyApproved =
      ((st.approvals h).agentApproved && (st.approvals h).bankApproved &&
       (st.approvals h).housingDeptApproved)) :
    ∀ h, ((govRun st cs).1.approvals h).fullyApproved =
      (((govRun st cs).1.approvals h).agentApproved &&
       ((govRun st cs).1.approvals h).bankApproved &&
       ((govRun st cs).1.approvals h).housingDeptApproved) := by
  induction cs generalizing st with
  | nil => exact hI
  | cons c cs ih => exact ih (govStep st c).1 (govStep_fullInv st c hI)

/-- Per transaction, the `HouseFullyApproved(h)` event count balances the
`fullyApproved` flag transition at `h`. -/
theorem govStep_fullCount (st : GovState) (c : GovCall) (h : Nat) :
    (govStep st c).2.count (GovEvent.houseFullyApproved h) +
      (if (st.approvals h).fullyApproved then 1 else 0) =
    (if ((govStep st c).1.approvals h).fullyApproved then 1 else 0) := by
  unfold govStep
  cases hd : govDispatch st c with
  | error e => simp
  | ok r =>
    obtain ⟨st', evs⟩ := r
    have hinv := govDispatch_ok_inv hd
    simp only [hinv.2.2.1, hinv.2.2.2]
    rw [List.count_cons]
    have hne : (GovEvent.houseApproved c.houseId c.sender c.role.evName
        = GovEvent.houseFullyApproved h) = False := by simp
    rcases checkFullApproval_events
        (st.store c.houseId (c.role.setFlag (st.approvals c.houseId)))
        c.houseId with ⟨hev, hfnew, hfold⟩ | ⟨hev, hst⟩
    · rw [store_at] at hfold
      have hsf := setFlag_mono c.role (st.approvals c.houseId)
      by_cases hh : h = c.houseId
      · subst hh
        have hof : (st.approvals c.houseId).fullyApproved = false := by
          rw [← hsf.2.2.2]; exact hfold
        rw [hev, hfnew, hof]
        simp
      · rw [hev]
        rw [checkFullApproval_frame _ _ hh, store_frame _ _ _ hh]
        have hc2 : (GovEvent.houseFullyApproved c.houseId
            = GovEvent.houseFullyApproved h) = False := by simp [Ne.symm hh]
        simp [List.count_cons, hc2]
    · rw [hev, hst]
      by_cases hh : h = c.houseId
      · subst hh
        have hsf := setFlag_mono c.role (st.approvals c.houseId)
        rw [store_at, hsf.2.2.2]
        simp
      · rw [store_frame _ _ _ hh]
        simp

theorem govRun_fullCount (st : GovState) (cs : List GovCall) (h : Nat) :
    (govRun st cs).2.count (GovEvent.houseFullyApproved h) +
      (if (st.approvals h).fullyApproved then 1 else 0) =
    (if ((govRun st cs).1.approvals h).fullyApproved then 1 else 0) := by
  induction cs generalizing st with
  | nil => simp [govRun]
  | cons c cs ih =>
    show ((govStep st c).2 ++ (govRun (govStep st c).1 cs).2).count
        (GovEvent.houseFullyApproved h) +
        (if (st.approvals h).fullyApproved then 1 else 0) =
      (if ((govRun (govStep st c).1 cs).1.approvals h).fullyApproved then 1
       else 0)
    rw [List.count_append]
    have h1 := govStep_fullCount st c h
    have h2 := ih (govStep st c).1
    omega

/-- Once all three flags are set, every further call for that asset reverts. -/
theorem govDispatch_fails_when_all_set {st : GovState} (c : GovCall)
    (ha : (st.approvals c.houseId).agentApproved = true)
    (hb : (st.approvals c.houseId).bankApproved = true)
    (hh : (st.approvals c.houseId).housingDeptApproved = true) :
    ∃ e, govDispatch st c = .error e := by
  rw [govDispatch_eq]
  by_cases h1 : c.sender = c.role.addr st.roles
  · have hflag : c.role.flag (st.approvals c.houseId) = true := by
      cases c.role
      · exact ha
      · exact hb
      · exact hh
    exact ⟨.alreadyApproved c.role.alreadyMsg, by simp [h1, hflag]⟩
  · exact ⟨.notAuthorized c.role.notAuthMsg, by simp [h1]⟩

theorem mintRun_cons (verify : Verifier) (keccak : ProofHash)
    (st : TokenState) (c : MintCall) (cs : List MintCall) :
    mintRun verify keccak st (c :: cs) =
      ((mintRun verify keccak (mintStep verify keccak st c).1 cs).1,
       (mintStep verify keccak st c).2.toList ++
         (mintRun verify keccak (mintStep verify keccak st c).1 cs).2) :=
  rfl

theorem govRun_cons (st : GovState) (c : GovCall) (cs : List GovCall) :
    govRun st (c :: cs) =
      ((govRun (govStep st c).1 cs).1,
       (govStep st c).2 ++ (govRun (govStep st c).1 cs).2) :=
  rfl

/-- If an asset shows as minted after a run, either it already was, or some
accepted call in the log carries a proof the verifier accepted against a
public-signal vector whose element `0` is that asset id. -/
theorem mintRun_minted_src (verify : Verifier) (keccak : ProofHash)
    (st : TokenState) (cs : List MintCall) (h : Nat)
    (hm : (mintRun verify keccak st cs).1.minted h = true) :
    st.minted h = true ∨
    ∃ e ∈ (mintRun verify keccak st cs).2,
      e.1.houseId = h ∧ e.1.pubSignal0 = h ∧ verify e.1.proof h = true := by
  induction cs generalizing st with
  | nil => exact Or.inl hm
  | cons c cs ih =>
    rw [mintRun_cons] at hm ⊢
    rcases ih (mintStep verify keccak st c).1 hm with hst | ⟨e, hmem, he⟩
    · unfold mintStep at hst ⊢
      cases hcall : mintHouseToken verify keccak st c.houseId c.proof
          c.pubSignal0 c.recipient with
      | error err =>
        rw [hcall] at hst
        exact Or.inl hst
      | ok r =>
        obtain ⟨st', ev⟩ := r
        have hinv := mintHouseToken_ok_inv hcall
        rw [hcall] at hst
        simp only [hinv.2.2.2.2.1] at hst
        by_cases hh : h = c.houseId
        · refine Or.inr ⟨(c, ev), ?_, hh ▸ rfl, ?_, ?_⟩
          · exact List.mem_append_left _ (by simp [Option.toList])
          · rw [hinv.2.1, hh]
          · rw [← hh] at hinv
            exact hinv.2.1 ▸ hinv.2.2.1
        · simp only [if_neg hh] at hst
          exact Or.inl hst
    · exact Or.inr ⟨e, List.mem_append_right _ hmem, he⟩

/-- After an asset is minted, no further call for it is ever accepted. -/
theorem mintRun_count_zero (verify : Verifier) (keccak : ProofHash)
    (st : TokenState) (cs : List MintCall) (h : Nat)
    (hm : st.minted h = true) :
    ((mintRun verify keccak st cs).2.countP
      (fun e => decide (e.1.houseId = h))) = 0 := by
  induction cs generalizing st with
  | nil => rfl
  | cons c cs ih =>
    rw [mintRun_cons, List.countP_append]
    have hmono := @mintStep_minted_mono verify keccak st c h hm
    rw [ih _ hmono, Nat.add_zero]
    unfold mintStep
    cases hcall : mintHouseToken verify keccak st c.houseId c.proof
        c.pubSignal0 c.recipient with
    | error err => rfl
    | ok r =>
      obtain ⟨st', ev⟩ := r
      have hinv := mintHouseToken_ok_inv hcall
      have hne : c.houseId ≠ h := fun he => by
        rw [he] at hinv
        exact absurd hm (by simp [hinv.1])
      simp [Option.toList, hne]

/-- Over any run, at most one call per asset id is ever accepted. -/
theorem mintRun_count_le_one (verify : Verifier) (keccak : ProofHash)
    (st : TokenState) (cs : List MintCall) (h : Nat) :
    ((mintRun verify keccak st cs).2.countP
      (fun e => decide (e.1.houseId = h))) ≤ 1 := by
  induction cs generalizing st with
  | nil => exact Nat.zero_le 1
  | cons c cs ih =>
    rw [mintRun_cons, List.countP_append]
    unfold mintStep
    cases hcall : mintHouseToken verify keccak st c.houseId c.proof
        c.pubSignal0 c.recipient with
    | error err =>
      simpa using ih st
    | ok r =>
      obtain ⟨st', ev⟩ := r
      have hinv := mintHouseToken_ok_inv hcall
      by_cases hh : c.houseId = h
      · have hmint : st'.minted h = true := by
          rw [hinv.2.2.2.2.1]
          simp [hh]
        have hz := mintRun_count_zero verify keccak st' cs h hmint
        simp [Option.toList, hh, hz]
      · simp only [Option.toList, List.countP_cons, List.countP_nil, hh]
        simp only [decide_eq_true_eq]
        simp [hh]
        exact ih st'

/-- One transaction preserves "an unminted asset has zero balance everywhere". -/
theorem mintStep_balInv (verify : Verifier) (keccak : ProofHash)
    (st : TokenState) (c : MintCall)
    (hP : ∀ h a, st.minted h = false → st.balances a h = 0) :
    ∀ h a, (mintStep verify keccak st c).1.minted h = false →
      (mintStep verify keccak st c).1.balances a h = 0 := by
  intro h a
  unfold mintStep
  cases hcall : mintHouseToken verify keccak st c.houseId c.proof
      c.pubSignal0 c.recipient with
  | error e => exact hP h a
  | ok r =>
    obtain ⟨st', ev⟩ := r
    have hinv := mintHouseToken_ok_inv hcall
    intro hm
    show st'.balances a h = 0
    replace hm : st'.minted h = false := hm
    rw [hinv.2.2.2.2.1] at hm
    by_cases hh : h = c.houseId
    · simp [hh] at hm
    · simp only [if_neg hh] at hm
      rw [hinv.2.2.2.2.2.1]
      simp only [hh, and_false, if_false]
      exact hP h a hm

theorem mintRun_balInv (verify : Verifier) (keccak : ProofHash)
    (st : TokenState) (cs : List MintCall)
    (hP : ∀ h a, st.minted h = false → st.balances a h = 0) :
    ∀ h a, (mintRun verify keccak st cs).1.minted h = false →
      (mintRun verify keccak st cs).1.balances a h = 0 := by
  induction cs generalizing st with
  | nil => exact hP
  | cons c cs ih =>
    exact ih (mintStep verify keccak st c).1
      (mintStep_balInv verify keccak st c hP)

theorem setFlag_other (r r' : Role) (s : ApprovalState) (hne : r ≠ r') :
    r.flag (r'.setFlag s) = r.flag s := by
  cases r <;> cases r' <;>
    first
      | exact absurd rfl hne
      | simp [Role.flag, Role.setFlag]

theorem checkFullApproval_roleFlag (st : GovState) (houseId h : Nat)
    (r : Role) :
    r.flag ((checkFullApproval st houseId).1.approvals h)
      = r.flag (st.approvals h) := by
  have hflags := checkFullApproval_flags st houseId h
  cases r
  · exact hflags.1
  · exact hflags.2.1
  · exact hflags.2.2.1

/-! ### Claim theorems -/

/-- Claim C1: whenever `minted[assetId]` is true after any sequence of
`mintHouseToken` transactions against a fresh contract, some accepted call in
the log verified against a public-input vector whose element 0 equals
`assetId`; and every failing path leaves the state unchanged, so `minted` is
never set there. -/
theorem minted_implies_accepted_proof (verify : Verifier) (keccak : ProofHash)
    (cs : List MintCall) (h : Nat)
    (hm : (mintRun verify keccak TokenState.init cs).1.minted h = true) :
    (∃ e ∈ (mintRun verify keccak TokenState.init cs).2,
      e.1.houseId = h ∧ e.1.pubSignal0 = h ∧ verify e.1.proof h = true) ∧
    (∀ (st : TokenState) (c : MintCall) (err : MintError),
      mintHouseToken verify keccak st c.houseId c.proof c.pubSignal0
        c.recipient = .error err →
      mintStep verify keccak st c = (st, none)) := by
  constructor
  · rcases mintRun_minted_src verify keccak TokenState.init cs h hm with
      hin | hex
    · exact absurd hin (by simp [TokenState.init])
    · exact hex
  · intro st c err herr
    exact mintStep_error herr

/-- Closed instance of C1 at a concrete accepted mint for asset 42. -/
theorem minted_implies_accepted_proof_witness :
    ∃ e ∈ (mintRun acceptAll zeroHash TokenState.init
        [⟨42, sampleProof, 42, 7⟩]).2,
      e.1.houseId = 42 ∧ e.1.pubSignal0 = 42 ∧
      acceptAll e.1.proof 42 = true :=
  (minted_implies_accepted_proof acceptAll zeroHash
    [⟨42, sampleProof, 42, 7⟩] 42 (by decide)).1

/-- Claim C2: `minted[assetId]` is monotone over any run (never reverts to
false), at most one call per asset is ever accepted, and once `minted` holds,
every further `mintHouseToken` call for that asset — with any arguments,
including the ones that succeeded — reverts `AlreadyMinted(assetId)` leaving
all state unchanged. -/
theorem mint_exactly_once (verify : Verifier) (keccak : ProofHash)
    (st : TokenState) (cs : List MintCall) (h : Nat) :
    (st.minted h = true → (mintRun verify keccak st cs).1.minted h = true) ∧
    (st.minted h = true →
      ∀ (proof : Groth16Proof) (s0 : Nat) (r : Address),
        mintHouseToken verify keccak st h proof s0 r
          = .error (.alreadyMinted h)) ∧
    (st.minted h = true → ∀ c : MintCall, c.houseId = h →
      mintStep verify keccak st c = (st, none)) ∧
    ((mintRun verify keccak st cs).2.countP
      (fun e => decide (e.1.houseId = h)) ≤ 1) := by
  refine ⟨fun hm => mintRun_minted_mono verify keccak st cs hm,
    fun hm proof s0 r => mintHouseToken_alreadyMinted proof s0 r hm,
    fun hm c hc => ?_,
    mintRun_count_le_one verify keccak st cs h⟩
  apply mintStep_error
  rw [hc]
  exact mintHouseToken_alreadyMinted c.proof c.pubSignal0 c.recipient
    (hc ▸ hm)

/-- Closed instance of C2: replaying the very call that minted asset 42
reverts with `AlreadyMinted(42)`. -/
theorem mint_exactly_once_witness :
    mintHouseToken acceptAll zeroHash
      (mintRun acceptAll zeroHash TokenState.init
        [⟨42, sampleProof, 42, 7⟩]).1 42 sampleProof 42 7
      = .error (.alreadyMinted 42) :=
  (mint_exactly_once acceptAll zeroHash
    (mintRun acceptAll zeroHash TokenState.init
      [⟨42, sampleProof, 42, 7⟩]).1 [] 42).2.1 (by decide) sampleProof 42 7

/-- Claim C3: for a not-yet-minted asset, a public-input vector whose element
0 differs from `houseId` makes `mintHouseToken` revert with the
`houseId mismatch` `require` (the spec's `PublicInputMismatch`) and change
nothing — for every verifier whatsoever, so the verifier is never consulted. -/
theorem public_input_mismatch_rejected (keccak : ProofHash)
    (st : TokenState) (houseId : Nat) (proof : Groth16Proof)
    (pubSignal0 : Nat) (recipient : Address)
    (hn : st.minted houseId = false) (hmis : pubSignal0 ≠ houseId) :
    ∀ verify : Verifier,
      mintHouseToken verify keccak st houseId proof pubSignal0 recipient
        = .error .houseIdMismatch ∧
      mintStep verify keccak st ⟨houseId, proof, pubSignal0, recipient⟩
        = (st, none) := by
  intro verify
  have he : mintHouseToken verify keccak st houseId proof pubSignal0
      recipient = .error .houseIdMismatch := by
    unfold mintHouseToken
    simp [hn, hmis]
  exact ⟨he, mintStep_error he⟩

/-- Closed instance of C3: a proof for asset 42 submitted with public input
43 is rejected even by an all-accepting verifier. -/
theorem public_input_mismatch_rejected_witness :
    mintHouseToken acceptAll zeroHash TokenState.init 42 sampleProof 43 7
      = .error .houseIdMismatch :=
  (public_input_mismatch_rejected zeroHash TokenState.init 42 sampleProof
    43 7 (by decide) (by decide) acceptAll).1

/-- Claim C4: over any interleaving of approve calls from a fresh registry,
the number of `HouseFullyApproved(h)` events equals 1 exactly when the
`fullyApproved` flag of `h` is set (so it fires exactly once, on the call
completing the third approval, regardless of role order), and once fully
approved every further call for `h` reverts. -/
theorem fully_approved_fires_exactly_once (roles : Roles) (cs : List GovCall)
    (h : Nat) :
    ((govRun (GovState.init roles) cs).2.count (GovEvent.houseFullyApproved h)
      = if ((govRun (GovState.init roles) cs).1.approvals h).fullyApproved
        then 1 else 0) ∧
    (((govRun (GovState.init roles) cs).1.approvals h).fullyApproved = true →
      ∀ c : GovCall, c.houseId = h →
        ∃ e, govDispatch (govRun (GovState.init roles) cs).1 c = .error e) := by
  constructor
  · have hc := govRun_fullCount (GovState.init roles) cs h
    simpa [GovState.init, ApprovalState.zero] using hc
  · intro hf c hc
    have hinv := govRun_fullInv (GovState.init roles) cs (fun _ => rfl) h
    rw [hf] at hinv
    have h3 := hinv.symm
    rw [Bool.and_eq_true, Bool.and_eq_true] at h3
    subst hc
    exact govDispatch_fails_when_all_set c h3.1.1 h3.1.2 h3.2

/-- Closed instance of C4: after agent, bank and housing department approved
asset 42, a repeat agent call fails. -/
theorem fully_approved_fires_exactly_once_witness :
    ∃ e, govDispatch (govRun (GovState.init sampleRoles)
        [⟨.agent, 1, 42⟩, ⟨.bank, 2, 42⟩, ⟨.housingDept, 3, 42⟩]).1
      ⟨.agent, 1, 42⟩ = .error e :=
  (fully_approved_fires_exactly_once sampleRoles
    [⟨.agent, 1, 42⟩, ⟨.bank, 2, 42⟩, ⟨.housingDept, 3, 42⟩] 42).2
    (by decide) ⟨.agent, 1, 42⟩ rfl

/-- Claim C5: after any run from a fresh registry, `fullyApproved` equals the
conjunction of the three role flags, and each of the four booleans is
monotone under any further sequence of calls from any state (hence each flag
transitions false→true at most once). -/
theorem aggregated_invariant_and_monotone (roles : Roles) (cs : List GovCall)
    (h : Nat) :
    (((govRun (GovState.init roles) cs).1.approvals h).fullyApproved
      = (((govRun (GovState.init roles) cs).1.approvals h).agentApproved &&
         ((govRun (GovState.init roles) cs).1.approvals h).bankApproved &&
         ((govRun (GovState.init roles) cs).1.approvals h).housingDeptApproved))
    ∧
    (∀ (st : GovState) (ds : List GovCall),
      ((st.approvals h).agentApproved = true →
        ((govRun st ds).1.approvals h).agentApproved = true) ∧
      ((st.approvals h).bankApproved = true →
        ((govRun st ds).1.approvals h).bankApproved = true) ∧
      ((st.approvals h).housingDeptApproved = true →
        ((govRun st ds).1.approvals h).housingDeptApproved = true) ∧
      ((st.approvals h).fullyApproved = true →
        ((govRun st ds).1.approvals h).fullyApproved = true)) :=
  ⟨govRun_fullInv (GovState.init roles) cs (fun _ => rfl) h,
   fun st ds => govRun_flags_mono st ds h⟩

/-- Closed instance of C5: the agent flag of asset 42 survives a later bank
approval. -/
theorem aggregated_invariant_and_monotone_witness :
    ((govRun (govRun (GovState.init sampleRoles) [⟨.agent, 1, 42⟩]).1
      [⟨.bank, 2, 42⟩]).1.approvals 42).agentApproved = true :=
  ((aggregated_invariant_and_monotone sampleRoles [⟨.agent, 1, 42⟩] 42).2
    (govRun (GovState.init sampleRoles) [⟨.agent, 1, 42⟩]).1
    [⟨.bank, 2, 42⟩]).1 (by decide)

/-- Claim C6: a repeat approve call by the authorized caller of a role whose
flag is already set reverts with that role's already-approved `require`
message and, as a transaction, leaves the whole approval state unchanged and
emits nothing. -/
theorem already_approved_unchanged (st : GovState) (r : Role)
    (sender : Address) (h : Nat)
    (hauth : sender = r.addr st.roles)
    (hflag : r.flag (st.approvals h) = true) :
    govDispatch st ⟨r, sender, h⟩ = .error (.alreadyApproved r.alreadyMsg) ∧
    govStep st ⟨r, sender, h⟩ = (st, []) := by
  have he : govDispatch st ⟨r, sender, h⟩
      = .error (.alreadyApproved r.alreadyMsg) := by
    rw [govDispatch_eq]
    simp [hauth, hflag]
  exact ⟨he, govStep_of_error he⟩

/-- Closed instance of C6: the agent approving asset 42 twice. -/
theorem already_approved_unchanged_witness :
    govDispatch (govRun (GovState.init sampleRoles) [⟨.agent, 1, 42⟩]).1
      ⟨.agent, 1, 42⟩ = .error (.alreadyApproved "Agent already approved") :=
  (already_approved_unchanged
    (govRun (GovState.init sampleRoles) [⟨.agent, 1, 42⟩]).1 .agent 1 42
    (by decide) (by decide)).1

/-- Claim C7: a caller that is not the address bound to the invoked role at
construction reverts with that role's modifier message and changes nothing;
the role addresses are fixed at construction and unchanged by every run. -/
theorem not_authorized_unchanged_roles_immutable (st : GovState) (c : GovCall)
    (hbad : ¬ (c.sender = c.role.addr st.roles)) :
    govDispatch st c = .error (.notAuthorized c.role.notAuthMsg) ∧
    govStep st c = (st, []) ∧
    (∀ cs : List GovCall, (govRun st cs).1.roles = st.roles) := by
  have he : govDispatch st c = .error (.notAuthorized c.role.notAuthMsg) := by
    rw [govDispatch_eq]
    simp [hbad]
  exact ⟨he, govStep_of_error he, fun cs => govRun_roles st cs⟩

/-- Closed instance of C7: address 9 cannot approve as agent. -/
theorem not_authorized_unchanged_roles_immutable_witness :
    govDispatch (GovState.init sampleRoles) ⟨.agent, 9, 42⟩
      = .error (.notAuthorized "Not Agent") :=
  (not_authorized_unchanged_roles_immutable (GovState.init sampleRoles)
    ⟨.agent, 9, 42⟩ (by decide)).1

/-- Claim C8 as stated is false: the circuit declares only two private
signals (`agentApproved`, `bankApproved`), so no injective assignment of the
three roles to private signals exists — the HousingDept approval has no
signal in the witness bundle. -/
theorem no_per_role_signal_assignment :
    ¬ ∃ f : Role → PrivateSignal, Function.Injective f := by
  rintro ⟨f, hf⟩
  cases ha : f .agent <;> cases hb : f .bank <;> cases hc : f .housingDept
  all_goals first
    | exact absurd (hf (ha.trans hb.symm)) (by decide)
    | exact absurd (hf (ha.trans hc.symm)) (by decide)
    | exact absurd (hf (hb.trans hc.symm)) (by decide)

/-- Claim C8, amended: the witness bundle carries exactly the two private
boolean signals `agentApproved` and `bankApproved` plus the public `houseId`;
the constraint system is satisfied precisely when both equal 1 (both flags
boolean and their product 1, `houseId` unconstrained), and the two signals
embed injectively into the roles as Agent and Bank — HousingDept is not
covered by the proof's statement. -/
theorem witness_bundle_two_signals (w : WitnessBundle) :
    (houseApprovalConstraints w ↔
      (w.agentApproved = 1 ∧ w.bankApproved = 1)) ∧
    (∃ f : PrivateSignal → Role, Function.Injective f ∧
      f .agentApproved = .agent ∧ f .bankApproved = .bank) := by
  constructor
  · constructor
    · rintro ⟨ha, hb, hab, -⟩
      have h1 : w.agentApproved = 1 := by
        rcases mul_eq_zero.mp ha with hz | hz
        · rw [hz, zero_mul] at hab
          exact absurd hab (by norm_num)
        · exact sub_eq_zero.mp hz
      have h2 : w.bankApproved = 1 := by
        rw [h1, one_mul] at hab
        exact hab
      exact ⟨h1, h2⟩
    · rintro ⟨ha, hb⟩
      refine ⟨?_, ?_, ?_, ?_⟩ <;> simp [ha, hb]
  · refine ⟨fun s => match s with
      | .agentApproved => .agent
      | .bankApproved => .bank, ?_, rfl, rfl⟩
    intro x y hxy
    cases x <;> cases y <;> simp_all

/-- Closed instance of the amended C8: the hard-coded relayer witness
`(agentApproved, bankApproved, houseId) = (1, 1, 42)` satisfies the circuit. -/
theorem witness_bundle_two_signals_witness :
    houseApprovalConstraints ⟨1, 1, 42⟩ :=
  (witness_bundle_two_signals ⟨1, 1, 42⟩).1.mpr ⟨rfl, rfl⟩

/-- Claim C9: from any reachable state in which `houseId` is unminted, a call
whose public input equals `houseId`, whose proof the verifier accepts, and
whose recipient is nonzero succeeds, sets `minted[houseId]`, leaves the
recipient holding exactly one unit of token `houseId`, and emits
`HouseTokenMinted(houseId, recipient, keccak proof)`. -/
theorem mint_success_effects (verify : Verifier) (keccak : ProofHash)
    (cs : List MintCall) (st : TokenState) (houseId : Nat)
    (proof : Groth16Proof) (recipient : Address)
    (hreach : (mintRun verify keccak TokenState.init cs).1 = st)
    (hn : st.minted houseId = false)
    (hv : verify proof houseId = true) (hr : recipient ≠ 0) :
    ∃ st', mintHouseToken verify keccak st houseId proof houseId recipient
        = .ok (st', ⟨houseId, recipient, keccak proof⟩) ∧
      st'.minted houseId = true ∧
      st'.balances recipient houseId = 1 := by
  have hbal : st.balances recipient houseId = 0 := by
    rw [← hreach] at hn ⊢
    exact mintRun_balInv verify keccak TokenState.init cs
      (fun _ _ _ => rfl) houseId recipient hn
  refine ⟨⟨fun h => if h = houseId then true else st.minted h,
           fun a h => if a = recipient ∧ h = houseId
             then st.balances a h + 1 else st.balances a h⟩, ?_, ?_, ?_⟩
  · unfold mintHouseToken
    simp [hn, hv, hr]
  · simp
  · simp [hbal]

/-- Closed instance of C9: minting asset 42 to recipient 7 from a fresh
contract. -/
theorem mint_success_effects_witness :
    ∃ st', mintHouseToken acceptAll zeroHash TokenState.init 42 sampleProof
        42 7 = .ok (st', ⟨42, 7, zeroHash sampleProof⟩) ∧
      st'.minted 42 = true ∧ st'.balances 7 42 = 1 :=
  mint_success_effects acceptAll zeroHash [] TokenState.init 42 sampleProof 7
    rfl rfl rfl (by decide)

/-- Claim C10 (frame property): a successful approve call for asset `X`
changes at most `X`'s record — and within it only the invoked role's flag
and `fullyApproved` — leaving every other asset's record and the role
addresses untouched; a successful mint for `X` changes `minted` only at `X`
and balances only at `(recipient, X)`. -/
theorem per_key_isolation
    (st : GovState) (c : GovCall) (st' : GovState) (evs : List GovEvent)
    (verify : Verifier) (keccak : ProofHash) (ts : TokenState)
    (mc : MintCall) (ts' : TokenState) (ev : HouseTokenMinted)
    (hg : govDispatch st c = .ok (st', evs))
    (hm : mintHouseToken verify keccak ts mc.houseId mc.proof mc.pubSignal0
      mc.recipient = .ok (ts', ev)) :
    ((∀ y, y ≠ c.houseId → st'.approvals y = st.approvals y) ∧
     (∀ r : Role, r ≠ c.role →
       r.flag (st'.approvals c.houseId) = r.flag (st.approvals c.houseId)) ∧
     st'.roles = st.roles) ∧
    ((∀ y, y ≠ mc.houseId → ts'.minted y = ts.minted y) ∧
     (∀ a y, ¬ (a = mc.recipient ∧ y = mc.houseId) →
       ts'.balances a y = ts.balances a y)) := by
  have hgi := govDispatch_ok_inv hg
  have hmi := mintHouseToken_ok_inv hm
  refine ⟨⟨?_, ?_, ?_⟩, ?_, ?_⟩
  · intro y hy
    rw [hgi.2.2.1, checkFullApproval_frame _ _ hy, store_frame _ _ _ hy]
  · intro r hr
    rw [hgi.2.2.1, checkFullApproval_roleFlag, store_at,
      setFlag_other r c.role _ hr]
  · rw [hgi.2.2.1, checkFullApproval_roles]
    rfl
  · intro y hy
    rw [hmi.2.2.2.2.1]
    simp [hy]
  · intro a y hay
    rw [hmi.2.2.2.2.2.1]
    simp only [if_neg hay]

/-- Closed instance of C10: an agent approval of asset 42 leaves asset 100's
record unchanged. -/
theorem per_key_isolation_witness :
    ((checkFullApproval ((GovState.init sampleRoles).store 42
        (Role.agent.setFlag ((GovState.init sampleRoles).approvals 42)))
        42).1.approvals 100) = (GovState.init sampleRoles).approvals 100 :=
  ((per_key_isolation (GovState.init sampleRoles) ⟨.agent, 1, 42⟩ _ _
    acceptAll zeroHash TokenState.init ⟨42, sampleProof, 42, 7⟩ _ _
    rfl rfl).1).1 100 (by decide)

end ZKPBridge
